import Mathlib

/-!
Shallow embedding of the LegalEagle compliance engine
(`service/compliance_service.go`, the action-item lifecycle service, and the
data model in `models/`), together with theorems settling the frozen claims.

Go machine details are modelled as follows: `string` is `String` (ASCII
semantics for case mapping, which is all the embedded code paths exercise),
`float64` risk scores are `ℚ` (all weights are the exact values 3, 2, 1, so Go
float arithmetic is exact on every reachable sum), `time.Time` is a symbolic
`GoTime` term recording the clock reads and `AddDate` calls the code performs,
maps are association lists or functions, and every network / database
interaction is an explicit oracle parameter.
-/

namespace LegalEagle

/-! ## Go string helpers (`strings.Contains`, `strings.ToLower`, ...) -/

/-- Check, at the `List Char` level, that the first list is a prefix of the second list (character by
character, mirroring byte comparison in Go). -/
def isPrefixChars : List Char → List Char → Bool
  | [], _ => true
  | _ :: _, [] => false
  | a :: as, b :: bs => a == b && isPrefixChars as bs

/-- Go `strings.Contains` on character lists: `sub` occurs contiguously. -/
def containsChars (sub : List Char) : List Char → Bool
  | [] => sub.isEmpty
  | c :: rest => isPrefixChars sub (c :: rest) || containsChars sub rest

/-- Go `strings.Contains s sub`. -/
def goContains (s sub : String) : Bool :=
  containsChars sub.toList s.toList

/-- Go `strings.ToLower` (ASCII case mapping). -/
def goToLower (s : String) : String :=
  String.mk (s.toList.map Char.toLower)

/-- Go `strings.ReplaceAll` for a single-character pattern and replacement. -/
def replaceChar (c r : Char) (s : String) : String :=
  String.mk (s.toList.map (fun x => if x == c then r else x))

/-- The Go regexp class `\s`, i.e. `[\t\n\f\r ]`. -/
def goIsSpace (c : Char) : Bool :=
  c == ' ' || c == '\t' || c == '\n' || c == '\x0c' || c == '\r'

/-- A character kept by the regexp replacement
`[^a-z0-9\s] -> ""` in `fallbackRuleExtraction`. -/
def keepNormChar (c : Char) : Bool :=
  ('a' ≤ c && c ≤ 'z') || ('0' ≤ c && c ≤ '9') || goIsSpace c

/-- The text normalization pipeline of `fallbackRuleExtraction`: lowercase,
hyphen/underscore to space, strip everything outside `[a-z0-9\s]`. -/
def normalizeOcr (ocrText : String) : String :=
  let l1 := goToLower ocrText
  let l2 := replaceChar '-' ' ' l1
  let l3 := replaceChar '_' ' ' l2
  String.mk (l3.toList.filter keepNormChar)

/-! ## FallbackMatcher (`fallbackRuleExtraction`) -/

/-- The built-in `ruleMatchers` table, in source order.  (The Go code iterates
a map in unspecified order; the claims settled here are membership statements,
which are order-independent.) -/
def ruleMatchers : List (String × List String) :=
  [("Confidentiality Marking",
    ["confidential", "private", "restricted", "secret", "sensitive"]),
   ("NDA Check",
    ["nda", "non-disclosure", "confidential", "agreement", "secret"]),
   ("Signature Requirement",
    ["sign", "signature", "date", "signed", "execute", "approval"]),
   ("Data Protection Clause",
    ["data", "privacy", "protection", "personal", "information", "secure"]),
   ("Liability Clause Requirement",
    ["liability", "responsibility", "limit", "clause", "legal", "risk"]),
   ("Payment Terms Specification",
    ["payment", "due", "terms", "money", "cost", "invoice", "charge"])]

/-- The source function `fallbackRuleExtraction(ocrText, ruleNames)`.  The `ruleNames` parameter is
present in the Go signature but never read by the function body; it is kept
here for fidelity. -/
def fallbackRuleExtraction (ocrText : String) (ruleNames : List String) : List String :=
  if ocrText = "" then []
  else
    let ocrLower := normalizeOcr ocrText
    ruleMatchers.foldl
      (fun violated rm =>
        let matchCount := (rm.2.filter (fun term => goContains ocrLower term)).length
        if matchCount > 0 then violated ++ [rm.1] else violated)
      []

/-! ## Data model (`models/complianceRule.go`) -/

/-- The struct `model.ComplianceRule` (fields consumed by the embedded code paths;
`CreatedAt` and the non-persisted `SearchContent` play no role in any claim). -/
structure ComplianceRule where
  id : String
  name : String
  description : String
  pattern : String
  severity : String
deriving Repr, DecidableEq

/-- The package-level helper `contains(slice, item)`. -/
def listHas (slice : List String) (item : String) : Bool :=
  slice.any (fun s => s == item)

/-! ## RuleClassifier (`DetermineApplicableRules`)

The remote Groq interaction is abstracted by an oracle describing how the
retry loop exits and how the response parses.  `resp` is nil at the status
check exactly when the loop never broke early and the final attempt returned a
transport error; a final 429 (or any response) keeps `resp` non-nil. -/

/-- How the body of a 200 response fares once read and parsed. -/
inductive GroqParse where
  /-- reading the body with `io.ReadAll` fails. -/
  | readErr
  /-- the outer `choices`-shaped unmarshal fails. -/
  | structErr
  /-- the outer unmarshal succeeds with `len(result.Choices) == 0`, leaving
  the inner `violated_rules` at its zero value. -/
  | emptyChoices
  /-- the inner unmarshal of `choices[0].message.content` fails. -/
  | contentErr
  /-- the inner unmarshal succeeds with this `violated_rules` list. -/
  | violated (rules : List String)
deriving Repr, DecidableEq

/-- Exit state of the 3-attempt retry loop. -/
inductive GroqRemote where
  /-- the loop never broke and the final attempt returned a transport error,
  so the Go variable `resp` is `nil` afterwards. -/
  | transportFail
  /-- the variable `resp` is a response with this status code (429 here means every
  attempt was rate-limited but the last one returned an HTTP response). -/
  | resp (status : Nat) (parse : GroqParse)
deriving Repr, DecidableEq

/-- Result of `DetermineApplicableRules`: a normal `([]string, error)` return,
or the runtime panic raised by dereferencing a nil `*http.Response`. -/
inductive DARResult where
  | ok (rules : List String)
  | err (msg : String)
  | nilDeref
deriving Repr, DecidableEq

/-- The source function `DetermineApplicableRules(ocrText)`.  Oracles: `groqAllowed` is the
`groqRateLimiter.Allow("groq_api_call")` verdict, `rulesDB` the
`GetAllComplianceRules` result (`none` = store error), `groqAPIKey` the
`VITE_GROQ_API_KEY` value (`""` = unset), `reqMarshalOk` whether marshalling
the request body succeeds, `remote` the retry-loop exit state. -/
def determineApplicableRules (groqAllowed : Bool) (rulesDB : Option (List ComplianceRule))
    (groqAPIKey : String) (reqMarshalOk : Bool) (remote : GroqRemote)
    (ocrText : String) : DARResult :=
  if !groqAllowed then
    DARResult.ok (fallbackRuleExtraction ocrText [])
  else
    match rulesDB with
    | none => DARResult.err "error retrieving compliance rules"
    | some allRules =>
      let ruleNames := allRules.map (fun r => r.name)
      if groqAPIKey = "" then
        DARResult.err "VITE_GROQ_API_KEY environment variable is not set"
      else if !reqMarshalOk then
        DARResult.ok (fallbackRuleExtraction ocrText ruleNames)
      else
        match remote with
        | GroqRemote.transportFail => DARResult.nilDeref
        | GroqRemote.resp status parse =>
          if status ≠ 200 then
            DARResult.ok (fallbackRuleExtraction ocrText ruleNames)
          else
            match parse with
            | GroqParse.readErr => DARResult.ok (fallbackRuleExtraction ocrText ruleNames)
            | GroqParse.structErr => DARResult.ok (fallbackRuleExtraction ocrText ruleNames)
            | GroqParse.emptyChoices => DARResult.ok []
            | GroqParse.contentErr => DARResult.ok (fallbackRuleExtraction ocrText ruleNames)
            | GroqParse.violated violatedRules =>
              if violatedRules.isEmpty then DARResult.ok []
              else DARResult.ok (violatedRules.filter (fun rule => listHas ruleNames rule))

/-! ## BatchClassifier (`DetermineApplicableRulesBatch`) -/

/-- The source function `validateRules(suggestedRules, availableRules)`. -/
def validateRules (suggestedRules availableRules : List String) : List String :=
  suggestedRules.filter (fun rule => listHas availableRules rule)

/-- Insertion into the Go `results` map, modelled as an association list with
first-insertion order (the claims about the map are key/value statements,
independent of the representation order). -/
def mapInsert (m : List (String × List String)) (k : String) (v : List String) :
    List (String × List String) :=
  if m.any (fun p => p.1 == k) then
    m.map (fun p => if p.1 == k then (k, v) else p)
  else m ++ [(k, v)]

/-- Merging one successful chunk response into the shared `results` map:
validate each suggested list, substitute the `"General Compliance"` sentinel
for an empty validated list, insert keyed by the response's document id. -/
def processChunk (ruleNames : List String) (results : List (String × List String))
    (response : List (String × List String)) : List (String × List String) :=
  response.foldl
    (fun acc p =>
      let validRules := validateRules p.2 ruleNames
      let finalRules := if validRules.isEmpty then ["General Compliance"] else validRules
      mapInsert acc p.1 finalRules)
    results

/-- The source function `DetermineApplicableRulesBatch(documents, batchSize)`.  The oracle
`remote i` is the outcome of `sendBatchComplianceRequest` for the `i`-th chunk
(`none` = the chunk call failed and is skipped; `some m` = the parsed,
untrusted `results` map of the response).  The chunk loop
`for i := 0; i < len(documents); i += batchSize` performs
`⌈len/batchSize⌉` iterations; the model matches the source for
`batchSize ≥ 1` (at `batchSize = 0` the Go loop would not terminate).
`ruleNames` reproduces the source's `make([]string, len(allRules))` followed
by `append`, which leaves `len(allRules)` empty-string entries in front. -/
def determineApplicableRulesBatch (groqAllowed : Bool)
    (rulesDB : Option (List ComplianceRule)) (groqAPIKey : String)
    (remote : Nat → Option (List (String × List String)))
    (documents : List String) (batchSize : Nat) :
    Except String (List (String × List String)) :=
  if documents.isEmpty then
    Except.error "no documents provided for batch processing"
  else if !groqAllowed then
    Except.error "rate limit exceeded for batch rule determination"
  else
    match rulesDB with
    | none => Except.error "error retrieving compliance rules"
    | some allRules =>
      let ruleNames := List.replicate allRules.length "" ++ allRules.map (fun r => r.name)
      if groqAPIKey = "" then
        Except.error "VITE_GROQ_API_KEY environment variable is not set"
      else
        let numChunks := (documents.length + batchSize - 1) / batchSize
        Except.ok ((List.range numChunks).foldl
          (fun acc chunkIdx =>
            match remote chunkIdx with
            | none => acc
            | some response => processChunk ruleNames acc response)
          [])

/-! ## RiskScorer (`CalculateRiskScore`) -/

/-- One entry of the `[]map[string]interface{}` outcome list.  A field is
`none` when the corresponding key is absent or its value is not a string,
i.e. exactly when the Go type assertion `result[k].(string)` reports `!ok`. -/
structure RuleResult where
  status : Option String
  ruleName : Option String
  severity : Option String
  explanation : Option String
deriving Repr, DecidableEq

/-- The `severityWeights` table with its default: unknown severities weigh
`1.0`. -/
def severityWeight (severity : String) : ℚ :=
  if severity = "high" then 3
  else if severity = "medium" then 2
  else if severity = "low" then 1
  else 1

/-- Lookup in the `ruleMap` built by iterating `rules` and overwriting, so the
last catalog entry with a given name wins. -/
def ruleMapFind (rules : List ComplianceRule) (name : String) : Option ComplianceRule :=
  rules.foldl (fun acc rule => if rule.name == name then some rule else acc) none

/-- Contribution of one outcome once its status and effective rule name are
known: `fail` outcomes add the severity weight of the catalog rule, anything
else (or an unknown rule name) adds zero. -/
def scoreOne (rules : List ComplianceRule) (status ruleName : String) : ℚ :=
  if status = "fail" then
    match ruleMapFind rules ruleName with
    | some rule => severityWeight rule.severity
    | none => 0
  else 0

/-- The scoring loop of `CalculateRiskScore`, with the loop index `i` made
explicit because the source falls back to `rules[i].Name` when an outcome has
no string `rule_name` (and skips the outcome when `i ≥ len(rules)`). -/
def riskScoreLoop (rules : List ComplianceRule) : Nat → List RuleResult → ℚ
  | _, [] => 0
  | i, result :: rest =>
    let contrib : ℚ :=
      match result.status with
      | none => 0
      | some status =>
        match result.ruleName with
        | some ruleName => scoreOne rules status ruleName
        | none =>
          match rules[i]? with
          | some rule => scoreOne rules status rule.name
          | none => 0
    contrib + riskScoreLoop rules (i + 1) rest

/-- The source function `CalculateRiskScore(results, rules)`.  `rateAllowed` is the
`ruleRateLimiter.Allow("risk_score_calculation")` verdict; a denial returns
`0.0` unconditionally. -/
def calculateRiskScore (rateAllowed : Bool) (results : List RuleResult)
    (rules : List ComplianceRule) : ℚ :=
  if !rateAllowed then 0
  else riskScoreLoop rules 0 results

/-- The per-outcome contribution as the specification words it: a `fail`
outcome whose rule name is found in the catalog adds `high=3`, `medium=2`,
`low=1` (unknown severity `1`); every other outcome adds zero. -/
def specContribution (rules : List ComplianceRule) (r : RuleResult) : ℚ :=
  if r.status = some "fail" then
    match r.ruleName with
    | some n =>
      match ruleMapFind rules n with
      | some rule =>
        if rule.severity = "high" then 3
        else if rule.severity = "medium" then 2
        else if rule.severity = "low" then 1
        else 1
      | none => 0
    | none => 0
  else 0

/-! ## RateGate (`RateLimiter`) -/

/-- The `RateLimiter` struct.  Time is a `Nat` clock; the mutex only
serializes `Allow`, whose body is modelled as one atomic step. -/
structure RateLimiter where
  requestCount : String → Nat
  limit : Nat
  window : Nat
  lastReset : Nat

/-- A limiter as built by `NewRateLimiter(limit, window)`, constructed at clock value `now`. -/
def newRateLimiter (limit window now : Nat) : RateLimiter :=
  { requestCount := fun _ => 0, limit := limit, window := window, lastReset := now }

/-- The method `(*RateLimiter).Allow(key)` at clock value `now`: reset all counters if
the window has passed, then increment the key's counter and compare with the
limit. -/
def RateLimiter.allow (rl : RateLimiter) (now : Nat) (key : String) : Bool × RateLimiter :=
  let rl1 := if now - rl.lastReset > rl.window then
      { rl with requestCount := fun _ => 0, lastReset := now }
    else rl
  let newCount := rl1.requestCount key + 1
  let rl2 := { rl1 with requestCount := fun k => if k = key then newCount else rl1.requestCount k }
  (decide (newCount ≤ rl2.limit), rl2)

/-- A sequence of `Allow` calls for one key at the given clock values,
returning the verdicts in order. -/
def allowRun (rl : RateLimiter) (key : String) : List Nat → List Bool
  | [] => []
  | t :: ts =>
    let step := rl.allow t key
    step.1 :: allowRun step.2 key ts

/-! ## ActionItemLifecycle (`CreateActionItems`, `UpdateActionItem`)

`time.Time` values are symbolic: a `GoTime` term records which clock reading
it came from and which `AddDate` offsets were applied, so "due date = creation
time plus one month" is the term `GoTime.addDate now 0 1 0` exactly as the
source computes `time.Now().AddDate(0, 1, 0)`.  All `time.Now()` reads inside
one service call are identified as the single parameter `now`. -/

/-- Symbolic `time.Time`. -/
inductive GoTime where
  | base (n : Nat)
  | addDate (t : GoTime) (years months days : Nat)
deriving Repr, DecidableEq

/-- Go's `isSeparator` used by `strings.Title` (ASCII part: alphanumerics and
underscore are not separators, everything else is; the embedded code only
titles ASCII severity strings). -/
def goIsSeparator (c : Char) : Bool :=
  !(('0' ≤ c && c ≤ '9') || ('a' ≤ c && c ≤ 'z') || ('A' ≤ c && c ≤ 'Z') || c == '_')

/-- Character stream of `strings.Title`: a character following a separator is
mapped to title case (for ASCII, upper case). -/
def goTitleChars (prev : Char) : List Char → List Char
  | [] => []
  | c :: rest =>
    (if goIsSeparator prev then c.toUpper else c) :: goTitleChars c rest

/-- Go `strings.Title` (the `prev` seed is a space, so the first character is
titled). -/
def goTitle (s : String) : String :=
  String.mk (goTitleChars ' ' s.toList)

/-- JSON values, for the `datatypes.JSON` payload columns. -/
inductive JVal where
  | null
  | bool (b : Bool)
  | num (n : Int)
  | str (s : String)
  | arr (elems : List JVal)
  | obj (fields : List (String × JVal))
deriving Repr

/-- The struct `model.ActionItem`.  `id` is empty on a freshly constructed record (the
store assigns the UUID). -/
structure ActionItem where
  id : String
  documentId : String
  ruleId : String
  description : String
  assignedTo : String
  status : String
  priority : String
  dueDate : GoTime
  createdAt : GoTime
  updatedAt : GoTime
deriving Repr, DecidableEq

/-- The struct `model.DocumentRuleResult` (without the non-persisted `SearchSummary`). -/
structure DocumentRuleResult where
  id : String
  documentId : String
  ruleId : String
  status : String
  details : JVal
  createdAt : GoTime
deriving Repr

/-- The struct `model.Document`, restricted to the fields the lifecycle code touches. -/
structure Document where
  id : String
  title : String
  parsedData : JVal
  updatedAt : GoTime
deriving Repr

/-- Go `json.Marshal` of one outcome map (`marshalResult`): an object holding
exactly the present string fields, in Go's marshalling order (sorted keys). -/
def marshalResult (r : RuleResult) : JVal :=
  JVal.obj
    ((match r.explanation with | some e => [("explanation", JVal.str e)] | none => []) ++
     (match r.ruleName with | some n => [("rule_name", JVal.str n)] | none => []) ++
     (match r.severity with | some s => [("severity", JVal.str s)] | none => []) ++
     (match r.status with | some s => [("status", JVal.str s)] | none => []))

/-- The query `s.db.Where("name = ?", ruleName).First(&rule)`: first stored rule with
that name, `none` = `ErrRecordNotFound`. -/
def dbFirstRuleByName (rules : List ComplianceRule) (name : String) : Option ComplianceRule :=
  rules.find? (fun r => r.name == name)

/-- The loop body of `CreateActionItems` over the already unmarshalled outcome
list (the claim conditions on the stored list parsing; store writes are
modelled as succeeding).  Returns the `(ActionItem, DocumentRuleResult)` pairs
created, in loop order. -/
def createActionItems (results : List RuleResult) (catalog : List ComplianceRule)
    (docId : String) (now : GoTime) : List (ActionItem × DocumentRuleResult) :=
  match results with
  | [] => []
  | result :: rest =>
    let tail := createActionItems rest catalog docId now
    match result.status with
    | none => tail
    | some status =>
      if status ≠ "fail" then tail
      else
        match result.ruleName with
        | none => tail
        | some ruleName =>
          match dbFirstRuleByName catalog ruleName with
          | none => tail
          | some rule =>
            if rule.id = "" then tail
            else
              let explanation := result.explanation.getD ""
              let severity := result.severity.getD ""
              let action : ActionItem :=
                { id := ""
                  documentId := docId
                  ruleId := rule.id
                  description := "Address " ++ ruleName ++ " non-compliance: " ++ explanation
                  assignedTo := ""
                  status := "pending"
                  priority := goTitle (goToLower severity)
                  dueDate := GoTime.addDate now 0 1 0
                  createdAt := now
                  updatedAt := now }
              let docResult : DocumentRuleResult :=
                { id := ""
                  documentId := docId
                  ruleId := rule.id
                  status := "fail"
                  details := marshalResult result
                  createdAt := now }
              (action, docResult) :: tail

/-- The relational store as the lifecycle code sees it. -/
structure Database where
  actionItems : List ActionItem
  ruleResults : List DocumentRuleResult
  documents : List Document
deriving Repr

/-- The query `s.db.First(&action, "id = ?", actionID)`. -/
def dbFirstAction (db : Database) (actionId : String) : Option ActionItem :=
  db.actionItems.find? (fun a => a.id == actionId)

/-- The query `s.db.Where("document_id = ? AND rule_id = ?", ...).First(&docResult)`. -/
def dbFirstResult (db : Database) (docId ruleId : String) : Option DocumentRuleResult :=
  db.ruleResults.find? (fun r => r.documentId == docId && r.ruleId == ruleId)

/-- The query `s.db.First(&doc, "id = ?", id)`. -/
def dbFirstDocument (db : Database) (docId : String) : Option Document :=
  db.documents.find? (fun d => d.id == docId)

/-- Go `json.Unmarshal` of a payload into `map[string]interface{}`: an object
yields its fields; anything else fails (or is empty) and the code proceeds
with a fresh empty map. -/
def objFields : JVal → List (String × JVal)
  | JVal.obj fields => fields
  | _ => []

/-- Assignment `m[key] = v` on a Go map modelled as an association list:
replace in place if present, append otherwise. -/
def mapSet (fields : List (String × JVal)) (key : String) (v : JVal) :
    List (String × JVal) :=
  if fields.any (fun p => p.1 == key) then
    fields.map (fun p => if p.1 == key then (key, v) else p)
  else fields ++ [(key, v)]

/-- The source function `UpdateActionItem(actionID)`.  `w1 w2 w3` are store-write oracles for the
three writes (action update, rule-result save, document update): `false`
makes that write fail.  Returns the store after whatever writes happened and
`some` error message if any step failed — matching the source, earlier writes
are not rolled back. -/
def updateActionItem (db : Database) (actionId : String) (now : GoTime)
    (w1 w2 w3 : Bool) : Database × Option String :=
  match dbFirstAction db actionId with
  | none => (db, some "record not found")
  | some action =>
    if !w1 then (db, some "update failed") else
    let db1 : Database :=
      { db with actionItems := db.actionItems.map (fun a =>
          if a.id == action.id then { a with status := "completed", updatedAt := now } else a) }
    match dbFirstResult db1 action.documentId action.ruleId with
    | none => (db1, some "record not found")
    | some docResult =>
      let details := mapSet (objFields docResult.details) "explanation" (JVal.str "No issues")
      let newResult : DocumentRuleResult :=
        { docResult with status := "resolved", details := JVal.obj details, createdAt := now }
      if !w2 then (db1, some "save failed") else
      let db2 : Database :=
        { db1 with ruleResults := db1.ruleResults.map (fun r =>
            if r.id == docResult.id then newResult else r) }
      match dbFirstDocument db2 action.documentId with
      | none => (db2, some "record not found")
      | some doc =>
        let parsed := mapSet (objFields doc.parsedData) "status" (JVal.bool true)
        if !w3 then (db2, some "update failed") else
        let db3 : Database :=
          { db2 with documents := db2.documents.map (fun d =>
              if d.id == doc.id then { d with parsedData := JVal.obj parsed, updatedAt := now } else d) }
        (db3, none)

/-! ## Fixed values used by the theorems below -/

/-- The well-formedness the batch loop maintains for stored values: non-empty,
and either the sentinel or a list of validated (catalog-checked) names. -/
def batchValueOk (ruleNames : List String) (v : List String) : Prop :=
  v ≠ [] ∧ (v = ["General Compliance"] ∨ ∀ r ∈ v, listHas ruleNames r = true)

/-- Fixed inputs exhibiting the order dependence of `CalculateRiskScore`. -/
def c4Rules : List ComplianceRule :=
  [⟨"1", "A", "", "", "high"⟩, ⟨"2", "B", "", "", "low"⟩]

/-- An outcome whose map has no `rule_name` key. -/
def c4NoName : RuleResult := ⟨some "fail", none, none, none⟩

/-- A failing outcome naming rule `B`. -/
def c4FailB : RuleResult := ⟨some "fail", some "B", none, none⟩

/-- Concrete fixtures for the C7 witness. -/
def c7Catalog : List ComplianceRule := [⟨"uuid-1", "NDA Check", "", "", "high"⟩]

/-- A failed outcome referencing a catalog rule. -/
def c7Fail : RuleResult := ⟨some "fail", some "NDA Check", some "high", some "missing NDA"⟩

/-- A passed outcome: no action item. -/
def c7Pass : RuleResult := ⟨some "pass", some "NDA Check", none, none⟩

/-- A failed outcome whose rule is absent from the catalog: skipped. -/
def c7Orphan : RuleResult := ⟨some "fail", some "Unknown Rule", some "low", none⟩

/-- Concrete store for the C8 witness. -/
def c8Db : Database :=
  { actionItems := [⟨"a-1", "d-1", "r-1", "desc", "", "pending", "High",
      GoTime.base 5, GoTime.base 1, GoTime.base 1⟩]
    ruleResults := [⟨"res-1", "d-1", "r-1", "fail",
      JVal.obj [("explanation", JVal.str "missing")], GoTime.base 1⟩]
    documents := [⟨"d-1", "Title", JVal.arr [], GoTime.base 1⟩] }

/-! ## Theorems -/

/-- The accumulator loop of `fallbackRuleExtraction` collects, after the
initial accumulator, exactly the first components of the table entries with at
least one matching term. -/
theorem fallback_foldl_eq (ocrLower : String) (l : List (String × List String))
    (acc : List String) :
    l.foldl
        (fun violated rm =>
          let matchCount := (rm.2.filter (fun term => goContains ocrLower term)).length
          if matchCount > 0 then violated ++ [rm.1] else violated)
        acc
      = acc ++ (l.filter
          (fun rm => (rm.2.filter (fun term => goContains ocrLower term)).length > 0)).map
            Prod.fst := by
  induction l generalizing acc with
  | nil => simp
  | cons x xs ih =>
    by_cases h : (x.2.filter (fun term => goContains ocrLower term)).length > 0 <;>
      simp [List.filter_cons, h, ih]

/-- Membership characterization of the fallback matcher for non-empty text. -/
theorem mem_fallback (text rule : String) (names : List String) (hne : text ≠ "") :
    rule ∈ fallbackRuleExtraction text names
      ↔ ∃ terms, (rule, terms) ∈ ruleMatchers ∧
          ∃ t ∈ terms, goContains (normalizeOcr text) t = true := by
  unfold fallbackRuleExtraction
  rw [if_neg hne, fallback_foldl_eq]
  simp only [List.nil_append, List.mem_map, List.mem_filter]
  constructor
  · rintro ⟨⟨r, terms⟩, ⟨hmem, hfil⟩, rfl⟩
    refine ⟨terms, hmem, ?_⟩
    have hlen : 0 < (terms.filter (fun term => goContains (normalizeOcr text) term)).length := by
      simpa using hfil
    obtain ⟨t, ht⟩ := List.exists_mem_of_length_pos hlen
    obtain ⟨htmem, htc⟩ := List.mem_filter.mp ht
    exact ⟨t, htmem, htc⟩
  · rintro ⟨terms, hmem, t, htmem, htc⟩
    refine ⟨(rule, terms), ⟨hmem, ?_⟩, rfl⟩
    have : t ∈ terms.filter (fun term => goContains (normalizeOcr text) term) :=
      List.mem_filter.mpr ⟨htmem, htc⟩
    simpa using List.length_pos.mpr (List.ne_nil_of_mem this)

/-- The built-in table has pairwise distinct rule names. -/
theorem ruleMatchers_keyUnique (rule : String) (terms terms' : List String)
    (h1 : (rule, terms) ∈ ruleMatchers) (h2 : (rule, terms') ∈ ruleMatchers) :
    terms = terms' := by
  simp only [ruleMatchers, List.mem_cons, List.not_mem_nil, or_false, Prod.mk.injEq] at h1 h2
  rcases h1 with h1 | h1 | h1 | h1 | h1 | h1 <;>
    rcases h2 with h2 | h2 | h2 | h2 | h2 | h2 <;> simp_all

/-- No keyword term of the table occurs in the normalized empty text. -/
theorem ruleMatchers_no_empty_match :
    ∀ p ∈ ruleMatchers, ∀ t ∈ p.2, goContains (normalizeOcr "") t = false := by decide

/-- C9: for every input text, the fallback matcher flags a rule as violated
iff at least one of that rule's built-in keyword terms occurs as a substring
of the normalized (lowercased, punctuation-stripped, hyphen/underscore-to-
space) text; in particular the empty input text yields no violations. -/
theorem C9_fallback_iff :
    (∀ names, fallbackRuleExtraction "" names = []) ∧
    ∀ (text rule : String) (terms : List String) (names : List String),
      (rule, terms) ∈ ruleMatchers →
      (rule ∈ fallbackRuleExtraction text names
        ↔ ∃ t ∈ terms, goContains (normalizeOcr text) t = true) := by
  refine ⟨fun names => rfl, fun text rule terms names hmem => ?_⟩
  by_cases htext : text = ""
  · subst htext
    constructor
    · intro h
      simp [fallbackRuleExtraction] at h
    · rintro ⟨t, htmem, htc⟩
      have := ruleMatchers_no_empty_match (rule, terms) hmem t htmem
      simp [this] at htc
  · rw [mem_fallback text rule names htext]
    constructor
    · rintro ⟨terms', hmem', hex⟩
      rwa [ruleMatchers_keyUnique rule terms terms' hmem hmem']
    · intro hex
      exact ⟨terms, hmem, hex⟩

/-- Witness for C9 at a concrete input: a text containing "nda" flags
"NDA Check". -/
theorem C9_fallback_iff_witness :
    "NDA Check" ∈ fallbackRuleExtraction "Please sign the NDA" [] :=
  (C9_fallback_iff.2 "Please sign the NDA" "NDA Check"
      ["nda", "non-disclosure", "confidential", "agreement", "secret"] [] (by decide)).mpr
    (by decide)

/-- Counterexample to C1: with the non-empty catalog
`[Payment Terms Specification]` and text `"nda"`, a non-200 remote response
sends `DetermineApplicableRules` to the fallback path, which returns
`"NDA Check"` — a rule name not present in the catalog — because
`fallbackRuleExtraction` never reads its `ruleNames` argument. -/
theorem C1_catalog_counterexample :
    determineApplicableRules true
        (some [⟨"1", "Payment Terms Specification", "", "", "low"⟩]) "key" true
        (GroqRemote.resp 500 (GroqParse.violated [])) "nda"
      = DARResult.ok ["NDA Check"] ∧
    "NDA Check" ∉
      ([⟨"1", "Payment Terms Specification", "", "", "low"⟩] :
        List ComplianceRule).map (fun r => r.name) := by
  constructor
  · decide
  · decide

/-- C1 as amended: rule names suggested by the remote service are validated
against the catalog and only catalog names survive; rule names produced by the
fallback matcher are drawn from the built-in table but are not validated
against the catalog. -/
theorem C1_remote_validated :
    (∀ (allRules : List ComplianceRule) (key : String) (vs : List String)
        (text : String) (out : List String),
      key ≠ "" →
      determineApplicableRules true (some allRules) key true
          (GroqRemote.resp 200 (GroqParse.violated vs)) text = DARResult.ok out →
      ∀ r ∈ out, r ∈ allRules.map (fun rule => rule.name)) ∧
    (∀ (text : String) (names : List String),
      ∀ r ∈ fallbackRuleExtraction text names, r ∈ ruleMatchers.map Prod.fst) := by
  constructor
  · intro allRules key vs text out hkey hout r hr
    simp only [determineApplicableRules, Bool.not_true, Bool.false_eq_true, if_false,
      if_neg hkey] at hout
    by_cases hvs : vs.isEmpty
    · rw [if_pos hvs] at hout
      cases hout
      simp at hr
    · rw [if_neg hvs] at hout
      cases hout
      obtain ⟨-, hhas⟩ := List.mem_filter.mp hr
      unfold listHas at hhas
      obtain ⟨s, hs, hbeq⟩ := List.any_eq_true.mp hhas
      rw [beq_iff_eq] at hbeq
      exact hbeq ▸ hs
  · intro text names r hr
    by_cases htext : text = ""
    · subst htext
      simp [fallbackRuleExtraction] at hr
    · obtain ⟨terms, hmem, -⟩ := (mem_fallback text r names htext).mp hr
      exact List.mem_map.mpr ⟨(r, terms), hmem, rfl⟩

/-- Witness for the amended C1 at a concrete input. -/
theorem C1_remote_validated_witness :
    "NDA Check" ∈
      ([⟨"1", "NDA Check", "", "", "high"⟩] : List ComplianceRule).map
        (fun rule => rule.name) :=
  C1_remote_validated.1 [⟨"1", "NDA Check", "", "", "high"⟩] "key"
    ["NDA Check", "Bogus Rule"] "text" ["NDA Check"] (by decide) (by decide)
    "NDA Check" (by decide)

/-- C2 at the failing input (code bug): when the rate gate admits the call,
the catalog loads, the key is set, and every retry attempt fails with a
transport error, the Go variable `resp` is nil and `resp.StatusCode` panics
instead of falling back.  The companion conjuncts show the two neighbouring
failure modes the claim also names — a non-200 status and an unparseable
body — do reach the fallback without an error. -/
theorem C2_transport_error_crashes :
    determineApplicableRules true (some [⟨"1", "NDA Check", "", "", "high"⟩]) "key" true
        GroqRemote.transportFail "nda" = DARResult.nilDeref ∧
    determineApplicableRules true (some [⟨"1", "NDA Check", "", "", "high"⟩]) "key" true
        (GroqRemote.resp 429 (GroqParse.violated ["NDA Check"])) "nda"
      = DARResult.ok (fallbackRuleExtraction "nda" ["NDA Check"]) ∧
    determineApplicableRules true (some [⟨"1", "NDA Check", "", "", "high"⟩]) "key" true
        (GroqRemote.resp 200 GroqParse.contentErr) "nda"
      = DARResult.ok (fallbackRuleExtraction "nda" ["NDA Check"]) := by
  refine ⟨rfl, by decide, by decide⟩

/-- C10 (implicit): when the rule-operations rate gate denies the
`"risk_score_calculation"` budget, `CalculateRiskScore` returns `0.0` for
every input with no error channel; the remaining conjuncts show a
high-severity failure list that scores `3.0` when admitted scores `0.0` when
denied — indistinguishable from a genuine zero-risk result. -/
theorem C10_denied_gate_scores_zero :
    (∀ (results : List RuleResult) (rules : List ComplianceRule),
        calculateRiskScore false results rules = 0) ∧
    calculateRiskScore true [⟨some "fail", some "NDA Check", none, none⟩]
        [⟨"1", "NDA Check", "", "", "high"⟩] = 3 ∧
    calculateRiskScore false [⟨some "fail", some "NDA Check", none, none⟩]
        [⟨"1", "NDA Check", "", "", "high"⟩] = 0 := by
  refine ⟨fun results rules => rfl, ?_, rfl⟩
  simp [calculateRiskScore, riskScoreLoop, scoreOne, ruleMapFind, severityWeight]

/-- When every outcome carries a string `rule_name`, the positional fallback
of the scoring loop never fires and the loop computes an index-free sum of
per-outcome contributions. -/
theorem riskScoreLoop_eq_sum (rules : List ComplianceRule) (results : List RuleResult)
    (i : Nat) (h : ∀ r ∈ results, r.ruleName.isSome) :
    riskScoreLoop rules i results = (results.map (specContribution rules)).sum := by
  induction results generalizing i with
  | nil => simp [riskScoreLoop]
  | cons r rest ih =>
    have hr : r.ruleName.isSome := h r (List.mem_cons_self r rest)
    have hrest : ∀ x ∈ rest, x.ruleName.isSome := fun x hx => h x (List.mem_cons_of_mem r hx)
    obtain ⟨n, hn⟩ := Option.isSome_iff_exists.mp hr
    rw [riskScoreLoop, List.map_cons, List.sum_cons, ih (i + 1) hrest]
    congr 1
    rw [hn]
    cases hs : r.status with
    | none => simp [specContribution, hs]
    | some s =>
      by_cases hfail : s = "fail"
      · subst hfail
        simp [specContribution, hs, hn, scoreOne, severityWeight]
      · simp [specContribution, hs, hn, scoreOne, hfail]

/-- The scoring loop of all-`pass` outcome lists contributes nothing,
whatever the index and however rule names are resolved. -/
theorem riskScoreLoop_all_pass (rules : List ComplianceRule) (results : List RuleResult)
    (i : Nat) (h : ∀ r ∈ results, r.status = some "pass") :
    riskScoreLoop rules i results = 0 := by
  induction results generalizing i with
  | nil => simp [riskScoreLoop]
  | cons r rest ih =>
    have hr := h r (List.mem_cons_self r rest)
    have hrest : ∀ x ∈ rest, x.status = some "pass" :=
      fun x hx => h x (List.mem_cons_of_mem r hx)
    rw [riskScoreLoop, ih (i + 1) hrest, hr]
    cases r.ruleName with
    | some n => simp [scoreOne]
    | none =>
      cases rules[i]? with
      | some rule => simp [scoreOne]
      | none => simp

/-- C5: on the admitted path, `CalculateRiskScore` of an outcome list whose
entries carry a string `rule_name` is the sum over outcomes of the
specification's contribution (only `fail` outcomes whose rule name is found
in the catalog count, weighted `high=3`, `medium=2`, `low=1`, unknown `1`);
an all-pass list yields `0.0` and a single high-severity fail yields `3.0`. -/
theorem C5_score_is_weighted_sum :
    (∀ (results : List RuleResult) (rules : List ComplianceRule),
        (∀ r ∈ results, r.ruleName.isSome) →
        calculateRiskScore true results rules
          = (results.map (specContribution rules)).sum) ∧
    (∀ (results : List RuleResult) (rules : List ComplianceRule),
        (∀ r ∈ results, r.status = some "pass") →
        calculateRiskScore true results rules = 0) ∧
    calculateRiskScore true [⟨some "fail", some "NDA Check", some "high", none⟩]
        [⟨"1", "NDA Check", "", "", "high"⟩] = 3 := by
  refine ⟨fun results rules h => riskScoreLoop_eq_sum rules results 0 h,
    fun results rules h => riskScoreLoop_all_pass rules results 0 h, ?_⟩
  simp [calculateRiskScore, riskScoreLoop, scoreOne, ruleMapFind, severityWeight]

/-- Witness for C5 at concrete inputs. -/
theorem C5_score_is_weighted_sum_witness :
    calculateRiskScore true [⟨some "fail", some "NDA Check", some "high", none⟩]
        [⟨"1", "NDA Check", "", "", "high"⟩]
      = ([⟨some "fail", some "NDA Check", some "high", none⟩].map
          (specContribution [⟨"1", "NDA Check", "", "", "high"⟩])).sum ∧
    calculateRiskScore true [⟨some "pass", some "NDA Check", none, none⟩]
        [⟨"1", "NDA Check", "", "", "high"⟩] = 0 :=
  ⟨C5_score_is_weighted_sum.1 [⟨some "fail", some "NDA Check", some "high", none⟩]
      [⟨"1", "NDA Check", "", "", "high"⟩] (by decide),
   C5_score_is_weighted_sum.2.1 [⟨some "pass", some "NDA Check", none, none⟩]
      [⟨"1", "NDA Check", "", "", "high"⟩] (by decide)⟩

/-- Counterexample to C4: when an outcome has no string `rule_name`, the
source substitutes `rules[i].Name` for the loop index `i`, so permuting the
outcome list changes the score (here `3+1 = 4` against `1+1 = 2`). -/
theorem C4_perm_counterexample :
    [c4NoName, c4FailB].Perm [c4FailB, c4NoName] ∧
    calculateRiskScore true [c4NoName, c4FailB] c4Rules ≠
      calculateRiskScore true [c4FailB, c4NoName] c4Rules := by
  refine ⟨List.Perm.swap c4FailB c4NoName [], ?_⟩
  simp [calculateRiskScore, riskScoreLoop, scoreOne, ruleMapFind, severityWeight,
    c4Rules, c4NoName, c4FailB]

/-- C4 as amended: permuting an outcome list whose entries all carry a string
`rule_name` (so the positional fallback never fires) does not change the
computed risk score. -/
theorem C4_perm_invariant (results results' : List RuleResult)
    (rules : List ComplianceRule)
    (hnames : ∀ r ∈ results, r.ruleName.isSome) (hperm : results.Perm results') :
    calculateRiskScore true results rules = calculateRiskScore true results' rules := by
  have hnames' : ∀ r ∈ results', r.ruleName.isSome :=
    fun r hr => hnames r (hperm.mem_iff.mpr hr)
  show riskScoreLoop rules 0 results = riskScoreLoop rules 0 results'
  rw [riskScoreLoop_eq_sum rules results 0 hnames,
    riskScoreLoop_eq_sum rules results' 0 hnames']
  exact (hperm.map (specContribution rules)).sum_eq

/-- Witness for the amended C4 at a concrete transposition. -/
theorem C4_perm_invariant_witness :
    calculateRiskScore true [c4FailB, ⟨some "pass", some "A", none, none⟩] c4Rules
      = calculateRiskScore true [⟨some "pass", some "A", none, none⟩, c4FailB] c4Rules :=
  C4_perm_invariant [c4FailB, ⟨some "pass", some "A", none, none⟩]
    [⟨some "pass", some "A", none, none⟩, c4FailB] c4Rules (by decide)
    (List.Perm.swap (⟨some "pass", some "A", none, none⟩ : RuleResult) c4FailB [])

/-- As long as every call lands inside the window opened at `lastReset`, no
reset fires and the verdicts follow the running per-key count. -/
theorem allowRun_within_window (L W t0 c : Nat) (key : String) (f : String → Nat)
    (hc : f key = c) (times : List Nat) (ht : ∀ t ∈ times, t - t0 ≤ W) :
    allowRun { requestCount := f, limit := L, window := W, lastReset := t0 } key times
      = (List.range times.length).map (fun i => decide (c + i + 1 ≤ L)) := by
  induction times generalizing f c with
  | nil => simp [allowRun]
  | cons t ts ih =>
    have hin : ¬ (t - t0 > W) := by
      have := ht t (List.mem_cons_self t ts)
      omega
    have hrest : ∀ u ∈ ts, u - t0 ≤ W := fun u hu => ht u (List.mem_cons_of_mem t hu)
    simp only [allowRun, RateLimiter.allow, if_neg hin]
    rw [List.length_cons, List.range_succ_eq_map, List.map_cons]
    refine congrArg₂ _ ?_ ?_
    · simp [hc]
    · rw [ih (c + 1) (fun k => if k = key then f key + 1 else f k) (by simp [hc]) hrest,
        List.map_map]
      refine List.map_congr_left fun i _ => ?_
      have : c + 1 + i + 1 = c + Nat.succ i + 1 := by omega
      simp [Function.comp, this]

/-- C6: a fresh limiter with limit `L` and window `W` admits exactly the first
`L` calls of a same-key sequence lying inside the window (the `(L+1)`-th
verdict, at index `L`, is `decide (L+1 ≤ L) = false`), and any limiter with a
positive limit admits the first call with a key once the window has elapsed,
regardless of the accumulated counts. -/
theorem C6_window_limit :
    (∀ (L W t0 : Nat) (key : String) (times : List Nat),
        (∀ t ∈ times, t - t0 ≤ W) →
        allowRun (newRateLimiter L W t0) key times
          = (List.range times.length).map (fun i => decide (i + 1 ≤ L))) ∧
    (∀ (rl : RateLimiter) (now : Nat) (key : String),
        now - rl.lastReset > rl.window → 1 ≤ rl.limit →
        (rl.allow now key).1 = true) := by
  constructor
  · intro L W t0 key times ht
    have h := allowRun_within_window L W t0 0 key (fun _ => 0) rfl times ht
    simpa [newRateLimiter] using h
  · intro rl now key hw hl
    simp only [RateLimiter.allow, if_pos hw]
    simpa using hl

/-- Witness for C6: limit 2, window 60 — three in-window calls verdict
`[true, true, false]`, and a call 61 ticks after the last reset of a limiter
whose key already counted 99 calls is admitted again. -/
theorem C6_window_limit_witness :
    allowRun (newRateLimiter 2 60 0) "groq_api_call" [10, 20, 30]
      = [true, true, false] ∧
    (RateLimiter.allow
        { requestCount := fun _ => 99, limit := 2, window := 60, lastReset := 0 }
        61 "groq_api_call").1 = true := by
  constructor
  · rw [C6_window_limit.1 2 60 0 "groq_api_call" [10, 20, 30] (by decide)]
    rfl
  · exact C6_window_limit.2
      { requestCount := fun _ => 99, limit := 2, window := 60, lastReset := 0 }
      61 "groq_api_call" (by decide) (by decide)

/-- Counterexample to C3: one document, batch size 1, and a chunk whose
remote call fails — the chunk is skipped (`continue`), so the returned map is
empty and the input document is assigned nothing at all, not the
`["General Compliance"]` sentinel the claim requires. -/
theorem C3_failed_chunk_counterexample :
    determineApplicableRulesBatch true (some [⟨"1", "NDA Check", "", "", "high"⟩])
        "key" (fun _ => none) ["document text"] 1 = Except.ok [] := rfl

/-- Insertion via `mapInsert` preserves value well-formedness. -/
theorem mapInsert_values (ruleNames : List String) (m : List (String × List String))
    (k : String) (v : List String)
    (hm : ∀ p ∈ m, batchValueOk ruleNames p.2) (hv : batchValueOk ruleNames v) :
    ∀ p ∈ mapInsert m k v, batchValueOk ruleNames p.2 := by
  intro p hp
  unfold mapInsert at hp
  split at hp
  · obtain ⟨q, hq, hpq⟩ := List.mem_map.mp hp
    by_cases hk : q.1 == k
    · rw [if_pos hk] at hpq
      exact hpq ▸ hv
    · rw [if_neg hk] at hpq
      exact hpq ▸ hm q hq
  · rcases List.mem_append.mp hp with h | h
    · exact hm p h
    · rw [List.mem_singleton.mp h]
      exact hv

/-- Merging one chunk response preserves value well-formedness: every value
it inserts is the sentinel or a non-empty validated list. -/
theorem processChunk_values (ruleNames : List String)
    (response acc : List (String × List String))
    (hacc : ∀ p ∈ acc, batchValueOk ruleNames p.2) :
    ∀ p ∈ processChunk ruleNames acc response, batchValueOk ruleNames p.2 := by
  induction response generalizing acc with
  | nil => exact hacc
  | cons q rest ih =>
    refine ih _ ?_
    refine mapInsert_values ruleNames acc q.1 _ hacc ?_
    by_cases hemp : (validateRules q.2 ruleNames).isEmpty
    · rw [if_pos hemp]
      exact ⟨by simp, Or.inl rfl⟩
    · rw [if_neg hemp]
      refine ⟨fun h => hemp (by simp [h]), Or.inr ?_⟩
      intro r hr
      exact (List.mem_filter.mp hr).2

/-- The chunk fold preserves value well-formedness. -/
theorem chunkFold_values (ruleNames : List String)
    (remote : Nat → Option (List (String × List String)))
    (chunks : List Nat) (acc : List (String × List String))
    (hacc : ∀ p ∈ acc, batchValueOk ruleNames p.2) :
    ∀ p ∈ chunks.foldl
        (fun a chunkIdx =>
          match remote chunkIdx with
          | none => a
          | some response => processChunk ruleNames a response)
        acc,
      batchValueOk ruleNames p.2 := by
  induction chunks generalizing acc with
  | nil => exact hacc
  | cons ci rest ih =>
    rw [List.foldl_cons]
    cases remote ci with
    | none => exact ih acc hacc
    | some response => exact ih _ (processChunk_values ruleNames response acc hacc)

/-- C3 as amended: every document id present in the map returned by
`DetermineApplicableRulesBatch` carries a non-empty rule list — the
`["General Compliance"]` sentinel exactly when its validated suggestions were
empty, otherwise a list of names validated against the (empty-string padded)
catalog name list; documents of a failed chunk, or absent from a chunk
response, are simply absent from the map. -/
theorem C3_returned_entries_nonempty (allRules : List ComplianceRule)
    (groqAPIKey : String) (remote : Nat → Option (List (String × List String)))
    (documents : List String) (batchSize : Nat) (m : List (String × List String))
    (h : determineApplicableRulesBatch true (some allRules) groqAPIKey remote
        documents batchSize = Except.ok m) :
    ∀ p ∈ m,
      batchValueOk (List.replicate allRules.length "" ++ allRules.map (fun r => r.name))
        p.2 := by
  intro p hp
  unfold determineApplicableRulesBatch at h
  by_cases hdoc : documents.isEmpty
  · simp [hdoc] at h
  · by_cases hkey : groqAPIKey = ""
    · simp [hdoc, hkey] at h
    · rw [if_neg hdoc, if_neg (by simp : ¬((!true) = true))] at h
      rw [show (match some allRules with
          | none => Except.error "error retrieving compliance rules"
          | some allRules =>
            let ruleNames := List.replicate allRules.length "" ++
              List.map (fun r => r.name) allRules
            if groqAPIKey = "" then
              Except.error "VITE_GROQ_API_KEY environment variable is not set"
            else
              let numChunks := (documents.length + batchSize - 1) / batchSize
              Except.ok
                (List.foldl
                  (fun acc chunkIdx =>
                    match remote chunkIdx with
                    | none => acc
                    | some response => processChunk ruleNames acc response)
                  [] (List.range numChunks))
          : Except String (List (String × List String)))
          = (let ruleNames := List.replicate allRules.length "" ++
              List.map (fun r => r.name) allRules
            if groqAPIKey = "" then
              Except.error "VITE_GROQ_API_KEY environment variable is not set"
            else
              Except.ok
                (List.foldl
                  (fun acc chunkIdx =>
                    match remote chunkIdx with
                    | none => acc
                    | some response => processChunk ruleNames acc response)
                  [] (List.range ((documents.length + batchSize - 1) / batchSize))))
          from rfl, if_neg hkey] at h
      have hm := Except.ok.inj h
      subst hm
      exact chunkFold_values _ remote _ [] (by simp) p hp

/-- Witness for the amended C3: a successful chunk whose second document's
suggestions fail validation receives exactly the sentinel. -/
theorem C3_returned_entries_nonempty_witness :
    batchValueOk
      (List.replicate ([⟨"1", "NDA Check", "", "", "high"⟩] :
          List ComplianceRule).length "" ++
        ([⟨"1", "NDA Check", "", "", "high"⟩] : List ComplianceRule).map
          (fun r => r.name))
      ["General Compliance"] := by
  have h := C3_returned_entries_nonempty [⟨"1", "NDA Check", "", "", "high"⟩] "key"
    (fun i => if i = 0 then
        some [("doc_0", ["NDA Check"]), ("doc_1", ["Bogus Rule"])]
      else none)
    ["alpha", "beta", "gamma"] 2
    [("doc_0", ["NDA Check"]), ("doc_1", ["General Compliance"])] (by rfl)
    ("doc_1", ["General Compliance"]) (by simp)
  exact h

/-- C7: over a catalog whose rules carry store-assigned (non-empty) ids,
`CreateActionItems` creates, for exactly the outcomes with status `"fail"`
whose rule name is found in the catalog, one `ActionItem` with status
`"pending"`, priority `strings.Title` of the lowercased outcome severity, and
due date equal to the creation time plus one month, paired with one
`DocumentRuleResult` with status `"fail"` and details equal to the marshalled
outcome payload; every other outcome (wrong status, missing rule name, rule
absent from the catalog) is skipped without an error. -/
theorem C7_action_items_per_failure (results : List RuleResult)
    (catalog : List ComplianceRule) (docId : String) (now : GoTime)
    (hids : ∀ rule ∈ catalog, rule.id ≠ "") :
    createActionItems results catalog docId now
      = results.filterMap (fun r =>
          match r.status, r.ruleName with
          | some status, some n =>
            if status = "fail" then
              match dbFirstRuleByName catalog n with
              | some rule => some
                  ({ id := ""
                     documentId := docId
                     ruleId := rule.id
                     description := "Address " ++ n ++ " non-compliance: " ++
                       r.explanation.getD ""
                     assignedTo := ""
                     status := "pending"
                     priority := goTitle (goToLower (r.severity.getD ""))
                     dueDate := GoTime.addDate now 0 1 0
                     createdAt := now
                     updatedAt := now },
                   { id := ""
                     documentId := docId
                     ruleId := rule.id
                     status := "fail"
                     details := marshalResult r
                     createdAt := now })
              | none => none
            else none
          | _, _ => none) := by
  induction results with
  | nil => rfl
  | cons r rest ih =>
    rw [createActionItems, List.filterMap_cons]
    cases hs : r.status with
    | none => simpa [hs] using ih
    | some status =>
      by_cases hfail : status = "fail"
      · subst hfail
        cases hn : r.ruleName with
        | none => simpa [hs, hn] using ih
        | some n =>
          cases hrule : dbFirstRuleByName catalog n with
          | none => simpa [hs, hn, hrule] using ih
          | some rule =>
            have hne : rule.id ≠ "" :=
              hids rule (List.mem_of_find?_eq_some hrule)
            simp only [hs, hn, hrule, if_neg hne, if_pos rfl]
            simpa using ih
      · cases hn : r.ruleName with
        | none => simpa [hs, hn, hfail] using ih
        | some n => simpa [hs, hn, hfail] using ih

/-- Witness for C7: of three outcomes only the catalogued failure produces a
pair, with priority `"High"`, status `"pending"` and the one-month due date. -/
theorem C7_action_items_per_failure_witness :
    createActionItems [c7Fail, c7Pass, c7Orphan] c7Catalog "doc-1" (GoTime.base 0)
      = [(⟨"", "doc-1", "uuid-1", "Address NDA Check non-compliance: missing NDA",
           "", "pending", "High", GoTime.addDate (GoTime.base 0) 0 1 0,
           GoTime.base 0, GoTime.base 0⟩,
          ⟨"", "doc-1", "uuid-1", "fail", marshalResult c7Fail, GoTime.base 0⟩)] :=
  (C7_action_items_per_failure [c7Fail, c7Pass, c7Orphan] c7Catalog "doc-1"
      (GoTime.base 0) (by decide)).trans (by rfl)

/-- C8: completing an action item applies exactly three effects in order —
(1) the item's status becomes `"completed"`, (2) the matching rule result's
status becomes `"resolved"` with the `"explanation"` marker merged into its
details, (3) a `status = true` flag is set inside the parent document's
stored outcome payload — and any failing sub-step (record not found or a
failed write) leaves the remaining collections untouched and returns the
error to the caller. -/
theorem C8_completion_effects (db : Database) (actionId : String) (now : GoTime)
    (w1 w2 w3 : Bool) :
    (∀ action docResult doc,
      dbFirstAction db actionId = some action →
      dbFirstResult db action.documentId action.ruleId = some docResult →
      dbFirstDocument db action.documentId = some doc →
      w1 = true → w2 = true → w3 = true →
      updateActionItem db actionId now w1 w2 w3 =
        ({ actionItems := db.actionItems.map (fun a =>
             if a.id == action.id then { a with status := "completed", updatedAt := now }
             else a)
           ruleResults := db.ruleResults.map (fun r =>
             if r.id == docResult.id then
               { docResult with
                 status := "resolved"
                 details := JVal.obj
                   (mapSet (objFields docResult.details) "explanation"
                     (JVal.str "No issues"))
                 createdAt := now }
             else r)
           documents := db.documents.map (fun d =>
             if d.id == doc.id then
               { d with
                 parsedData := JVal.obj
                   (mapSet (objFields doc.parsedData) "status" (JVal.bool true))
                 updatedAt := now }
             else d) }, none)) ∧
    (dbFirstAction db actionId = none →
      updateActionItem db actionId now w1 w2 w3 = (db, some "record not found")) ∧
    (∀ action,
      dbFirstAction db actionId = some action → w1 = false →
      updateActionItem db actionId now w1 w2 w3 = (db, some "update failed")) ∧
    (∀ action,
      dbFirstAction db actionId = some action → w1 = true →
      dbFirstResult db action.documentId action.ruleId = none →
      (updateActionItem db actionId now w1 w2 w3).1.ruleResults = db.ruleResults ∧
      (updateActionItem db actionId now w1 w2 w3).1.documents = db.documents ∧
      (updateActionItem db actionId now w1 w2 w3).2 = some "record not found") ∧
    (∀ action docResult,
      dbFirstAction db actionId = some action → w1 = true →
      dbFirstResult db action.documentId action.ruleId = some docResult → w2 = false →
      (updateActionItem db actionId now w1 w2 w3).1.ruleResults = db.ruleResults ∧
      (updateActionItem db actionId now w1 w2 w3).1.documents = db.documents ∧
      (updateActionItem db actionId now w1 w2 w3).2 = some "save failed") ∧
    (∀ action docResult,
      dbFirstAction db actionId = some action → w1 = true →
      dbFirstResult db action.documentId action.ruleId = some docResult → w2 = true →
      dbFirstDocument db action.documentId = none →
      (updateActionItem db actionId now w1 w2 w3).1.documents = db.documents ∧
      (updateActionItem db actionId now w1 w2 w3).2 = some "record not found") ∧
    (∀ action docResult doc,
      dbFirstAction db actionId = some action → w1 = true →
      dbFirstResult db action.documentId action.ruleId = some docResult → w2 = true →
      dbFirstDocument db action.documentId = some doc → w3 = false →
      (updateActionItem db actionId now w1 w2 w3).1.documents = db.documents ∧
      (updateActionItem db actionId now w1 w2 w3).2 = some "update failed") := by
  have hres : ∀ (A : List ActionItem) (R : List DocumentRuleResult)
      (D : List Document) (x y : String),
      dbFirstResult ⟨A, R, D⟩ x y
        = R.find? (fun r => r.documentId == x && r.ruleId == y) := fun _ _ _ _ _ => rfl
  have hdoc : ∀ (A : List ActionItem) (R : List DocumentRuleResult)
      (D : List Document) (x : String),
      dbFirstDocument ⟨A, R, D⟩ x = D.find? (fun d => d.id == x) := fun _ _ _ _ => rfl
  have hdbres : dbFirstResult db = fun x y =>
      db.ruleResults.find? (fun r => r.documentId == x && r.ruleId == y) := rfl
  have hdbdoc : dbFirstDocument db = fun x => db.documents.find? (fun d => d.id == x) := rfl
  refine ⟨?_, ?_, ?_, ?_, ?_, ?_, ?_⟩
  · intro action docResult doc ha hr hd hw1 hw2 hw3
    subst hw1; subst hw2; subst hw3
    rw [hdbres] at hr
    rw [hdbdoc] at hd
    simp only [updateActionItem, ha, hres, hdoc, hr, hd, Bool.not_true,
      Bool.false_eq_true, if_false]
  · intro ha
    simp only [updateActionItem, ha]
  · intro action ha hw1
    subst hw1
    simp only [updateActionItem, ha, Bool.not_false, if_true]
  · intro action ha hw1 hr
    subst hw1
    rw [hdbres] at hr
    simp only [updateActionItem, ha, hres, hr, Bool.not_true, Bool.false_eq_true,
      if_false]
    exact ⟨trivial, trivial, trivial⟩
  · intro action docResult ha hw1 hr hw2
    subst hw1; subst hw2
    rw [hdbres] at hr
    simp only [updateActionItem, ha, hres, hr, Bool.not_true, Bool.not_false,
      Bool.false_eq_true, if_false, if_true]
    exact ⟨trivial, trivial, trivial⟩
  · intro action docResult ha hw1 hr hw2 hd
    subst hw1; subst hw2
    rw [hdbres] at hr
    rw [hdbdoc] at hd
    simp only [updateActionItem, ha, hres, hdoc, hr, hd, Bool.not_true,
      Bool.false_eq_true, if_false]
    exact ⟨trivial, trivial⟩
  · intro action docResult doc ha hw1 hr hw2 hd hw3
    subst hw1; subst hw2; subst hw3
    rw [hdbres] at hr
    rw [hdbdoc] at hd
    simp only [updateActionItem, ha, hres, hdoc, hr, hd, Bool.not_true,
      Bool.not_false, Bool.false_eq_true, if_false, if_true]
    exact ⟨trivial, trivial⟩

/-- Witness for C8: on a store holding the matching item, result and
document, completion succeeds with no error. -/
theorem C8_completion_effects_witness :
    (updateActionItem c8Db "a-1" (GoTime.base 9) true true true).2 = none := by
  have h := (C8_completion_effects c8Db "a-1" (GoTime.base 9) true true true).1
    ⟨"a-1", "d-1", "r-1", "desc", "", "pending", "High",
      GoTime.base 5, GoTime.base 1, GoTime.base 1⟩
    ⟨"res-1", "d-1", "r-1", "fail",
      JVal.obj [("explanation", JVal.str "missing")], GoTime.base 1⟩
    ⟨"d-1", "Title", JVal.arr [], GoTime.base 1⟩
    rfl rfl rfl rfl rfl rfl
  rw [h]

end LegalEagle
